import Mathlib

/-!
Verification of the LabWired example firmware family (three C sources:
the NUCLEO-H563ZI board firmware, the HIL displacement stress-test
firmware, and the arm-c-hello example).  The C code is shallowly
embedded: each driver routine becomes a pure Lean function over natural
numbers (machine words are Nat with explicit 32-bit masking where it
matters), and each firmware startup sequence becomes an explicit list of
register-write events in program order.
-/

set_option maxRecDepth 4000

/-- Byte sequence of a C string literal, as the list of ASCII codes that
`uart3_write_str` pushes to `uart3_write_byte` in order. -/
def strBytes (s : String) : List Nat := s.toList.map Char.toNat

/-- Digit-collection loop of `uart3_write_u32_dec`:
`while (value > 0 && i < sizeof(buf)) { buf[i++] = '0' + value % 10; value /= 10; }`.
The remaining buffer capacity `sizeof(buf) - i` is the explicit `fuel`
argument (initially 10), so the guard `i < sizeof(buf)` is `fuel > 0`;
the list returned is the stores `buf[i]`, `buf[i+1]`, ... in store order. -/
def collectDigits (fuel : Nat) (value : Nat) : List Nat :=
  match fuel with
  | 0 => []
  | f + 1 =>
    if value > 0 then (48 + value % 10) :: collectDigits f (value / 10) else []

/-- `uart3_write_u32_dec value`: the exact byte sequence handed to
`uart3_write_byte`.  Value 0 emits the single byte for the character 0;
otherwise the collected digits are emitted in reverse
(`while (i > 0) { i--; uart3_write_byte(buf[i]); }`). -/
def u32DecBytes (value : Nat) : List Nat :=
  if value = 0 then [48] else (collectDigits 10 value).reverse

/-- Modelled from the spec: the exact decimal ASCII representation of a
value, most-significant digit first, no leading zeros, and the single
character 0 for value 0.  Built from the Mathlib digit expansion
(`Nat.digits 10` is least-significant first), for comparison with the
source-derived `u32DecBytes`. -/
def specDecimalBytes (value : Nat) : List Nat :=
  if value = 0 then [48] else ((Nat.digits 10 value).map (fun d => 48 + d)).reverse

lemma collectDigits_eq_digits :
    ∀ (fuel value : Nat), value < 10 ^ fuel →
      collectDigits fuel value = (Nat.digits 10 value).map (fun d => 48 + d) := by
  intro fuel
  induction fuel with
  | zero =>
    intro value hv
    interval_cases value
    simp [collectDigits]
  | succ f ih =>
    intro value hv
    by_cases h0 : value = 0
    · simp [collectDigits, h0]
    · have hpos : 0 < value := Nat.pos_of_ne_zero h0
      have hdiv : value / 10 < 10 ^ f := by
        rw [Nat.div_lt_iff_lt_mul (by norm_num)]
        calc value < 10 ^ (f + 1) := hv
        _ = 10 ^ f * 10 := by ring
      rw [collectDigits, if_pos hpos, ih _ hdiv,
        Nat.digits_def' (by norm_num : 1 < 10) hpos]
      simp

lemma collectDigits_len_le (fuel value : Nat) :
    (collectDigits fuel value).length ≤ fuel := by
  induction fuel generalizing value with
  | zero => simp [collectDigits]
  | succ f ih =>
    rw [collectDigits]
    by_cases h : value > 0
    · rw [if_pos h]
      simpa using Nat.succ_le_succ (ih (value / 10))
    · rw [if_neg h]
      simp

/-- Claim C1: for every 32-bit value, `uart3_write_u32_dec` emits exactly
the decimal ASCII representation, most-significant digit first, with no
leading zero byte, and exactly the single character 0 when the value
is 0. -/
theorem uart3_write_u32_dec_correct (value : Nat) (hv : value < 2 ^ 32) :
    u32DecBytes value = specDecimalBytes value ∧
    (value ≠ 0 → (u32DecBytes value).head? ≠ some 48) ∧
    u32DecBytes 0 = [48] := by
  have hb : value < 10 ^ 10 := lt_of_lt_of_le hv (by norm_num)
  have hcoll := collectDigits_eq_digits 10 value hb
  refine ⟨?_, ?_, by simp [u32DecBytes]⟩
  · by_cases h0 : value = 0
    · simp [u32DecBytes, specDecimalBytes, h0]
    · simp [u32DecBytes, specDecimalBytes, h0, hcoll]
  · intro h0
    have hne : Nat.digits 10 value ≠ [] := Nat.digits_ne_nil_iff_ne_zero.mpr h0
    have hlast := Nat.getLast_digit_ne_zero 10 h0
    rw [u32DecBytes, if_neg h0, hcoll]
    rw [List.head?_reverse, List.getLast?_map]
    rw [List.getLast?_eq_getLast _ hne]
    simp only [Option.map_some']
    intro hcontra
    have : 48 + (Nat.digits 10 value).getLast hne = 48 := by
      exact Option.some.inj hcontra
    omega

/-- Witness for C1 at value 407: the emitted bytes are the codes of the
characters 4, 0, 7. -/
theorem uart3_write_u32_dec_correct_witness :
    u32DecBytes 407 = specDecimalBytes 407 ∧
    ((407 : Nat) ≠ 0 → (u32DecBytes 407).head? ≠ some 48) ∧
    u32DecBytes 0 = [48] :=
  uart3_write_u32_dec_correct 407 (by norm_num)

/-- Claim C9: the digit-collection loop stores at most 10 bytes (every
store index into the 10-byte local buffer is in bounds), and for every
32-bit value the capacity guard never truncates: the collected list is
the full digit expansion of the value. -/
theorem uart3_write_u32_dec_safety (value : Nat) (hv : value < 2 ^ 32) :
    (collectDigits 10 value).length ≤ 10 ∧
    collectDigits 10 value = (Nat.digits 10 value).map (fun d => 48 + d) := by
  have hb : value < 10 ^ 10 := lt_of_lt_of_le hv (by norm_num)
  exact ⟨collectDigits_len_le 10 value, collectDigits_eq_digits 10 value hb⟩

/-- Witness for C9 at the maximum 32-bit value 4294967295: ten digits are
collected, exactly the digit expansion. -/
theorem uart3_write_u32_dec_safety_witness :
    (collectDigits 10 4294967295).length ≤ 10 ∧
    collectDigits 10 4294967295 =
      (Nat.digits 10 4294967295).map (fun d => 48 + d) :=
  uart3_write_u32_dec_safety 4294967295 (by norm_num)

/-! ## GPIO register model (nucleo board firmware) -/

/-- 32-bit one's complement, the value of the C expression `~mask` on
`uint32_t`. -/
def compl32 (m : Nat) : Nat := (2 ^ 32 - 1) ^^^ m

/-- The four GPIO port configuration registers touched by
`gpio_config_output` and `gpio_config_input_pullup`. -/
structure GpioState where
  moder : Nat
  otyper : Nat
  ospeedr : Nat
  pupdr : Nat
deriving DecidableEq

/-- `gpio_config_output(gpio, pin)`: mode field := 01 (general-purpose
output), output-type bit cleared (push-pull), speed field := 01, pull
field cleared.  Register updates transcribed line by line from the
source. -/
def gpio_config_output (g : GpioState) (pin : Nat) : GpioState :=
  let shift := pin * 2
  let mask := 3 <<< shift
  { moder := (g.moder &&& compl32 mask) ||| (1 <<< shift)
    otyper := g.otyper &&& compl32 (1 <<< pin)
    ospeedr := (g.ospeedr &&& compl32 mask) ||| (1 <<< shift)
    pupdr := g.pupdr &&& compl32 mask }

/-- `gpio_config_input_pullup(gpio, pin)`: mode field cleared (input),
pull field := 01 (pull-up); OTYPER and OSPEEDR are not written. -/
def gpio_config_input_pullup (g : GpioState) (pin : Nat) : GpioState :=
  let shift := pin * 2
  let mask := 3 <<< shift
  { moder := g.moder &&& compl32 mask
    otyper := g.otyper
    ospeedr := g.ospeedr
    pupdr := (g.pupdr &&& compl32 mask) ||| (1 <<< shift) }

/-- The 2-bit register field for a pin whose low bit sits at position
`k`. -/
def field2 (x k : Nat) : Nat := (x >>> k) &&& 3

lemma testBit_compl32 (x j : Nat) (hj : j < 32) :
    (compl32 x).testBit j = !(x.testBit j) := by
  unfold compl32
  rw [Nat.testBit_xor, Nat.testBit_two_pow_sub_one]
  simp [hj]

lemma testBit_three (d : Nat) : (3 : Nat).testBit d = decide (d < 2) := by
  have h3 : (3 : Nat) = 2 ^ 2 - 1 := by norm_num
  rw [h3, Nat.testBit_two_pow_sub_one]

lemma testBit_one_shl (s j : Nat) : ((1 : Nat) <<< s).testBit j = decide (s = j) := by
  rw [Nat.one_shiftLeft, Nat.testBit_two_pow]

lemma field2_eq (x k : Nat) :
    field2 x k = (cond (x.testBit k) 1 0) + 2 * (cond (x.testBit (k + 1)) 1 0) := by
  unfold field2
  have hand : (x >>> k) &&& 3 = (x >>> k) % 4 := by
    have h4 : ((2 : Nat) ^ 2 - 1) = 3 := by norm_num
    have := Nat.and_pow_two_sub_one_eq_mod (x >>> k) 2
    rw [h4] at this
    simpa using this
  rw [hand, Nat.shiftRight_eq_div_pow]
  have ht0 : x.testBit k = decide (x / 2 ^ k % 2 = 1) := Nat.testBit_to_div_mod
  have ht1 : x.testBit (k + 1) = decide (x / 2 ^ k / 2 % 2 = 1) := by
    have hdd : x / 2 ^ (k + 1) = x / 2 ^ k / 2 := by
      rw [pow_succ, Nat.div_div_eq_div_mul]
    rw [Nat.testBit_to_div_mod, hdd]
  rw [ht0, ht1]
  generalize x / 2 ^ k = y
  by_cases hc0 : y % 2 = 1 <;> by_cases hc1 : y / 2 % 2 = 1 <;>
    simp [hc0, hc1] <;> omega

lemma setField01_testBit (x s j : Nat) (hj : j < 32) :
    ((x &&& compl32 (3 <<< s)) ||| (1 <<< s)).testBit j =
      (if j = s then true else if j = s + 1 then false else x.testBit j) := by
  rw [Nat.testBit_or, Nat.testBit_and, testBit_compl32 _ _ hj, Nat.testBit_shiftLeft,
    testBit_three, testBit_one_shl]
  by_cases h1 : j = s
  · subst h1
    simp
  · by_cases h2 : j = s + 1
    · subst h2
      have hle : s ≤ s + 1 := by omega
      have hlt : s + 1 - s < 2 := by omega
      have hne : ¬(s = s + 1) := by omega
      have hne2 : ¬(s + 1 = s) := by omega
      simp [hle, hlt, hne, hne2]
    · have hne : ¬(s = j) := fun h => h1 h.symm
      rcases Nat.lt_or_ge j s with h | h
      · have hnle : ¬(s ≤ j) := by omega
        simp [hnle, hne, h1, h2]
      · have hge2 : ¬(j - s < 2) := by omega
        simp [h, hge2, hne, h1, h2]

lemma clearField_testBit (x s j : Nat) (hj : j < 32) :
    (x &&& compl32 (3 <<< s)).testBit j =
      (if j = s then false else if j = s + 1 then false else x.testBit j) := by
  rw [Nat.testBit_and, testBit_compl32 _ _ hj, Nat.testBit_shiftLeft, testBit_three]
  by_cases h1 : j = s
  · subst h1
    simp
  · by_cases h2 : j = s + 1
    · subst h2
      have hle : s ≤ s + 1 := by omega
      have hlt : s + 1 - s < 2 := by omega
      have hne2 : ¬(s + 1 = s) := by omega
      simp [hle, hlt, hne2]
    · rcases Nat.lt_or_ge j s with h | h
      · have hnle : ¬(s ≤ j) := by omega
        simp [hnle, h1, h2]
      · have hge2 : ¬(j - s < 2) := by omega
        simp [h, hge2, h1, h2]

lemma clearBit_testBit (x p j : Nat) (hj : j < 32) :
    (x &&& compl32 (1 <<< p)).testBit j =
      (if j = p then false else x.testBit j) := by
  rw [Nat.testBit_and, testBit_compl32 _ _ hj, testBit_one_shl]
  by_cases h1 : j = p
  · subst h1
    simp
  · have hne : ¬(p = j) := fun h => h1 h.symm
    simp [hne, h1]

lemma field2_setField01_self (x s : Nat) (hs : s + 1 < 32) :
    field2 ((x &&& compl32 (3 <<< s)) ||| (1 <<< s)) s = 1 := by
  rw [field2_eq, setField01_testBit _ _ _ (by omega), setField01_testBit _ _ _ hs]
  have hne : ¬(s + 1 = s) := by omega
  simp [hne]

lemma field2_clearField_self (x s : Nat) (hs : s + 1 < 32) :
    field2 (x &&& compl32 (3 <<< s)) s = 0 := by
  rw [field2_eq, clearField_testBit _ _ _ (by omega), clearField_testBit _ _ _ hs]
  have hne : ¬(s + 1 = s) := by omega
  simp [hne]

lemma field2_setField01_ne (x s k : Nat) (hk : k + 1 < 32)
    (h1 : k ≠ s) (h2 : k ≠ s + 1) (h3 : k + 1 ≠ s) (h4 : k + 1 ≠ s + 1) :
    field2 ((x &&& compl32 (3 <<< s)) ||| (1 <<< s)) k = field2 x k := by
  rw [field2_eq, field2_eq, setField01_testBit _ _ _ (by omega),
    setField01_testBit _ _ _ hk]
  simp [h1, h2, h3, h4]

lemma field2_clearField_ne (x s k : Nat) (hk : k + 1 < 32)
    (h1 : k ≠ s) (h2 : k ≠ s + 1) (h3 : k + 1 ≠ s) (h4 : k + 1 ≠ s + 1) :
    field2 (x &&& compl32 (3 <<< s)) k = field2 x k := by
  rw [field2_eq, field2_eq, clearField_testBit _ _ _ (by omega),
    clearField_testBit _ _ _ hk]
  simp [h1, h2, h3, h4]

/-- Claim C8: for every pin, `gpio_config_output` sets the 2-bit mode
field of the pin to 01 (general-purpose output), clears the output-type
bit (push-pull), sets the 2-bit speed field (to 01), and clears the
2-bit pull field. -/
theorem gpio_config_output_correct (g : GpioState) (pin : Nat) (hp : pin < 16) :
    field2 (gpio_config_output g pin).moder (pin * 2) = 1 ∧
    (gpio_config_output g pin).otyper.testBit pin = false ∧
    field2 (gpio_config_output g pin).ospeedr (pin * 2) = 1 ∧
    field2 (gpio_config_output g pin).pupdr (pin * 2) = 0 := by
  have hs : pin * 2 + 1 < 32 := by omega
  refine ⟨?_, ?_, ?_, ?_⟩
  · rw [show (gpio_config_output g pin).moder =
        ((g.moder &&& compl32 (3 <<< (pin * 2))) ||| (1 <<< (pin * 2))) from rfl]
    exact field2_setField01_self _ _ hs
  · rw [show (gpio_config_output g pin).otyper =
        (g.otyper &&& compl32 (1 <<< pin)) from rfl]
    rw [clearBit_testBit _ _ _ (by omega)]
    simp
  · rw [show (gpio_config_output g pin).ospeedr =
        ((g.ospeedr &&& compl32 (3 <<< (pin * 2))) ||| (1 <<< (pin * 2))) from rfl]
    exact field2_setField01_self _ _ hs
  · rw [show (gpio_config_output g pin).pupdr =
        (g.pupdr &&& compl32 (3 <<< (pin * 2))) from rfl]
    exact field2_clearField_self _ _ hs

/-- Witness for C8 at pin 4 on a port state with all four registers
holding the pattern 0xFFFFFFFF. -/
theorem gpio_config_output_correct_witness :
    field2 (gpio_config_output ⟨4294967295, 4294967295, 4294967295, 4294967295⟩ 4).moder (4 * 2) = 1 ∧
    (gpio_config_output ⟨4294967295, 4294967295, 4294967295, 4294967295⟩ 4).otyper.testBit 4 = false ∧
    field2 (gpio_config_output ⟨4294967295, 4294967295, 4294967295, 4294967295⟩ 4).ospeedr (4 * 2) = 1 ∧
    field2 (gpio_config_output ⟨4294967295, 4294967295, 4294967295, 4294967295⟩ 4).pupdr (4 * 2) = 0 :=
  gpio_config_output_correct ⟨4294967295, 4294967295, 4294967295, 4294967295⟩ 4 (by norm_num)

/-- Claim C10: both GPIO configuration routines leave every other pin
untouched: for any q different from the configured pin, the 2-bit MODER,
OSPEEDR and PUPDR fields of q and the OTYPER bit of q are unchanged. -/
theorem gpio_config_frame (g : GpioState) (pin q : Nat)
    (hp : pin < 16) (hq : q < 16) (hne : q ≠ pin) :
    field2 (gpio_config_output g pin).moder (q * 2) = field2 g.moder (q * 2) ∧
    (gpio_config_output g pin).otyper.testBit q = g.otyper.testBit q ∧
    field2 (gpio_config_output g pin).ospeedr (q * 2) = field2 g.ospeedr (q * 2) ∧
    field2 (gpio_config_output g pin).pupdr (q * 2) = field2 g.pupdr (q * 2) ∧
    field2 (gpio_config_input_pullup g pin).moder (q * 2) = field2 g.moder (q * 2) ∧
    (gpio_config_input_pullup g pin).otyper.testBit q = g.otyper.testBit q ∧
    field2 (gpio_config_input_pullup g pin).ospeedr (q * 2) = field2 g.ospeedr (q * 2) ∧
    field2 (gpio_config_input_pullup g pin).pupdr (q * 2) = field2 g.pupdr (q * 2) := by
  have hk : q * 2 + 1 < 32 := by omega
  have h1 : q * 2 ≠ pin * 2 := by omega
  have h2 : q * 2 ≠ pin * 2 + 1 := by omega
  have h3 : q * 2 + 1 ≠ pin * 2 := by omega
  have h4 : q * 2 + 1 ≠ pin * 2 + 1 := by omega
  refine ⟨?_, ?_, ?_, ?_, ?_, rfl, rfl, ?_⟩
  · rw [show (gpio_config_output g pin).moder =
        ((g.moder &&& compl32 (3 <<< (pin * 2))) ||| (1 <<< (pin * 2))) from rfl]
    exact field2_setField01_ne _ _ _ hk h1 h2 h3 h4
  · rw [show (gpio_config_output g pin).otyper =
        (g.otyper &&& compl32 (1 <<< pin)) from rfl]
    rw [clearBit_testBit _ _ _ (by omega)]
    simp [hne]
  · rw [show (gpio_config_output g pin).ospeedr =
        ((g.ospeedr &&& compl32 (3 <<< (pin * 2))) ||| (1 <<< (pin * 2))) from rfl]
    exact field2_setField01_ne _ _ _ hk h1 h2 h3 h4
  · rw [show (gpio_config_output g pin).pupdr =
        (g.pupdr &&& compl32 (3 <<< (pin * 2))) from rfl]
    exact field2_clearField_ne _ _ _ hk h1 h2 h3 h4
  · rw [show (gpio_config_input_pullup g pin).moder =
        (g.moder &&& compl32 (3 <<< (pin * 2))) from rfl]
    exact field2_clearField_ne _ _ _ hk h1 h2 h3 h4
  · rw [show (gpio_config_input_pullup g pin).pupdr =
        ((g.pupdr &&& compl32 (3 <<< (pin * 2))) ||| (1 <<< (pin * 2))) from rfl]
    exact field2_setField01_ne _ _ _ hk h1 h2 h3 h4

/-- Witness for C10: configuring pin 0 on a concrete port state leaves
the fields of pin 13 unchanged. -/
theorem gpio_config_frame_witness :
    field2 (gpio_config_output ⟨3, 5, 7, 9⟩ 0).moder (13 * 2) = field2 (3 : Nat) (13 * 2) ∧
    (gpio_config_output ⟨3, 5, 7, 9⟩ 0).otyper.testBit 13 = (5 : Nat).testBit 13 ∧
    field2 (gpio_config_output ⟨3, 5, 7, 9⟩ 0).ospeedr (13 * 2) = field2 (7 : Nat) (13 * 2) ∧
    field2 (gpio_config_output ⟨3, 5, 7, 9⟩ 0).pupdr (13 * 2) = field2 (9 : Nat) (13 * 2) ∧
    field2 (gpio_config_input_pullup ⟨3, 5, 7, 9⟩ 0).moder (13 * 2) = field2 (3 : Nat) (13 * 2) ∧
    (gpio_config_input_pullup ⟨3, 5, 7, 9⟩ 0).otyper.testBit 13 = (5 : Nat).testBit 13 ∧
    field2 (gpio_config_input_pullup ⟨3, 5, 7, 9⟩ 0).ospeedr (13 * 2) = field2 (7 : Nat) (13 * 2) ∧
    field2 (gpio_config_input_pullup ⟨3, 5, 7, 9⟩ 0).pupdr (13 * 2) = field2 (9 : Nat) (13 * 2) :=
  gpio_config_frame ⟨3, 5, 7, 9⟩ 0 13 (by norm_num) (by norm_num) (by norm_num)

/-! ## Pin write through the bit set/reset register -/

/-- Word written to a port BSRR register by `led_write` for one pin:
bit `pin` to assert, bit `pin + 16` to deassert
(`on ? (1UL << PIN) : (1UL << (PIN + 16U))`). -/
def bsrrWord (pin : Nat) (lvl : Bool) : Nat :=
  if lvl then 1 <<< pin else 1 <<< (pin + 16)

/-- Modelled from the spec: the effect of a BSRR write on the output
data register.  The vendor register map is an external collaborator (not
under src/); per the spec, the low half-word sets the corresponding
output bits and the high half-word resets them, and a write touches no
other bit. -/
def bsrrApply (odr w : Nat) : Nat :=
  (odr &&& compl32 (w >>> 16)) ||| (w &&& (2 ^ 16 - 1))

lemma bsrrApply_testBit (odr pin : Nat) (lvl : Bool) (j : Nat)
    (hp : pin < 16) (hj : j < 16) :
    (bsrrApply odr (bsrrWord pin lvl)).testBit j =
      (if j = pin then lvl else odr.testBit j) := by
  unfold bsrrApply bsrrWord
  cases lvl with
  | true =>
    rw [if_pos rfl, Nat.testBit_or, Nat.testBit_and, testBit_compl32 _ _ (by omega),
      Nat.testBit_shiftRight, testBit_one_shl, Nat.testBit_and, testBit_one_shl,
      Nat.testBit_two_pow_sub_one]
    have hne16 : ¬(pin = 16 + j) := by omega
    by_cases h : j = pin
    · subst h
      simp [hne16, hj]
    · have hne : ¬(pin = j) := fun hc => h hc.symm
      simp [hne16, hne, h, hj]
  | false =>
    rw [if_neg (by simp), Nat.testBit_or, Nat.testBit_and, testBit_compl32 _ _ (by omega),
      Nat.testBit_shiftRight, testBit_one_shl, Nat.testBit_and, testBit_one_shl,
      Nat.testBit_two_pow_sub_one]
    have hne16 : ¬(pin + 16 = j) := by omega
    by_cases h : j = pin
    · subst h
      have hc : j + 16 = 16 + j := by omega
      simp [hne16, hj, hc]
    · have hne : ¬(pin + 16 = 16 + j) := by omega
      simp [hne16, hne, h, hj]

/-- Claim C5: the pin write asserts with bit N and deasserts with bit
N + 16 of the set/reset register, every other bit of the port output
register is unchanged, and two pins held at opposite levels both keep
their levels after either one is individually written. -/
theorem led_write_isolation (odr pin q : Nat) (lvl : Bool)
    (hp : pin < 16) (hq : q < 16) (hne : q ≠ pin) :
    (bsrrApply odr (bsrrWord pin lvl)).testBit pin = lvl ∧
    (bsrrApply odr (bsrrWord pin lvl)).testBit q = odr.testBit q ∧
    (odr.testBit pin = true → odr.testBit q = false →
      ((bsrrApply odr (bsrrWord pin true)).testBit pin = true ∧
       (bsrrApply odr (bsrrWord pin true)).testBit q = false ∧
       (bsrrApply odr (bsrrWord q false)).testBit q = false ∧
       (bsrrApply odr (bsrrWord q false)).testBit pin = true)) := by
  have hqp : ¬(pin = q) := fun h => hne h.symm
  refine ⟨?_, ?_, ?_⟩
  · rw [bsrrApply_testBit odr pin lvl pin hp hp]
    simp
  · rw [bsrrApply_testBit odr pin lvl q hp hq]
    simp [hne]
  · intro hhi hlo
    refine ⟨?_, ?_, ?_, ?_⟩
    · rw [bsrrApply_testBit odr pin true pin hp hp]
      simp
    · rw [bsrrApply_testBit odr pin true q hp hq]
      simp [hne, hlo]
    · rw [bsrrApply_testBit odr q false q hq hq]
      simp
    · rw [bsrrApply_testBit odr q false pin hq hp]
      simp [hqp, hhi]

/-- Witness for C5: port output register 1 (pin 0 high, pin 4 low),
asserting pin 0 and deasserting pin 4. -/
theorem led_write_isolation_witness :
    (bsrrApply 1 (bsrrWord 0 true)).testBit 0 = true ∧
    (bsrrApply 1 (bsrrWord 0 true)).testBit 4 = (1 : Nat).testBit 4 ∧
    ((1 : Nat).testBit 0 = true → (1 : Nat).testBit 4 = false →
      ((bsrrApply 1 (bsrrWord 0 true)).testBit 0 = true ∧
       (bsrrApply 1 (bsrrWord 0 true)).testBit 4 = false ∧
       (bsrrApply 1 (bsrrWord 4 false)).testBit 4 = false ∧
       (bsrrApply 1 (bsrrWord 4 false)).testBit 0 = true)) :=
  led_write_isolation 1 0 4 true (by norm_num) (by norm_num) (by norm_num)

/-! ## Serial line output of the main loops -/

/-- One status line of the nucleo main loop, as the byte sequence handed
to the UART: `"BLINK " count " PB0=" led " PF4=" led " PG4=" led
" BTN13=" btn "\r\n"`. -/
def statusLineBytes (blink_count led_on btn : Nat) : List Nat :=
  strBytes "BLINK " ++ u32DecBytes blink_count ++
  strBytes " PB0=" ++ u32DecBytes led_on ++
  strBytes " PF4=" ++ u32DecBytes led_on ++
  strBytes " PG4=" ++ u32DecBytes led_on ++
  strBytes " BTN13=" ++ u32DecBytes btn ++
  strBytes "\r\n"

/-- First main-loop iteration of the nucleo firmware, starting from
`blink_count = 0`, `led_on = 0`: the loop body first toggles
(`led_on ^= 1`), then samples `btn = (GPIOC->IDR >> 13) & 1` and emits
the status line. -/
def mainFirstIterBytes (idr : Nat) : List Nat :=
  statusLineBytes 0 (0 ^^^ 1) ((idr >>> 13) &&& 1)

/-- Claim C2: with the button input sampled low, the first loop
iteration emits exactly `BLINK 0 PB0=1 PF4=1 PG4=1 BTN13=0` followed by
carriage return and line feed; the first toggle has set the level
high. -/
theorem main_first_iteration_line (idr : Nat)
    (h : (idr >>> 13) &&& 1 = 0) :
    mainFirstIterBytes idr = strBytes "BLINK 0 PB0=1 PF4=1 PG4=1 BTN13=0\r\n" := by
  unfold mainFirstIterBytes
  rw [h]
  decide

/-- Witness for C2 with the whole input data register reading zero. -/
theorem main_first_iteration_line_witness :
    mainFirstIterBytes 0 = strBytes "BLINK 0 PB0=1 PF4=1 PG4=1 BTN13=0\r\n" :=
  main_first_iteration_line 0 (by decide)

/-- A byte sequence ends with carriage return then line feed. -/
def crlfTerminated (l : List Nat) : Bool :=
  l.reverse.take 2 == [10, 13]

/-- The banner line of the nucleo firmware. -/
def nucleoBanner : List Nat := strBytes "H563-BLINK-UART\r\n"

/-- The two lines of the stress-test firmware. -/
def hilLines : List (List Nat) :=
  [strBytes "HIL Stress Test Started\r\n",
   strBytes "HIL Stress Test Passed\r\n"]

/-- The three string literals the arm-c-hello example sends with
`uart_puts`. -/
def armHelloLines : List (List Nat) :=
  [strBytes "Hello from LabWired C Example!\n",
   strBytes "This is running on a simulated ARM Cortex-M0.\n",
   strBytes "Pulse...\n"]

/-- All fixed serial lines of the firmware family. -/
def firmwareFixedLines : List (List Nat) :=
  nucleoBanner :: (hilLines ++ armHelloLines)

lemma crlfTerminated_append (l : List Nat) :
    crlfTerminated (l ++ [13, 10]) = true := by
  unfold crlfTerminated
  rw [List.reverse_append]
  rfl

/-- Claim C7 counterexample: not every line the firmware family emits is
terminated by carriage return and line feed; the arm-c-hello lines end
in a bare line feed. -/
theorem crlf_claim_counterexample :
    ¬ (∀ l ∈ firmwareFixedLines, crlfTerminated l = true) := by decide

/-- Claim C7 amended: every line of the nucleo firmware (banner and
every status line) and of the stress-test firmware ends with carriage
return and line feed; the arm-c-hello example ends each one of its
lines with a bare line feed instead (the last byte is the line feed 10
and the sequence is not carriage-return line-feed terminated). -/
theorem crlf_amended :
    ((nucleoBanner :: hilLines).all crlfTerminated = true) ∧
    (∀ blink_count led_on btn : Nat,
      crlfTerminated (statusLineBytes blink_count led_on btn) = true) ∧
    (armHelloLines.all
      (fun l => (l.reverse.take 1 == [10]) && !(crlfTerminated l)) = true) := by
  refine ⟨by decide, ?_, by decide⟩
  intro bc ld btn
  exact crlfTerminated_append _

/-! ## Register-write event traces of the two STM32H563 firmware images -/

/-- One observable step of a firmware image, in program order: a
register write, a buffer fill, a string emission, a completion poll or a
halt.  The numeric tag of `rccWrite` and `gpioCfgWrite` is just the
position of the statement inside its routine. -/
inductive FwEv where
  | rccWrite (tag : Nat)
  | gpioCfgWrite (tag : Nat)
  | uartCR1Write (te re ue : Bool)
  | uartCR2Zero
  | uartCR3Zero
  | uartBRRWrite (v : Nat)
  | uartCR3SetDMAT
  | dmaCPARWrite
  | dmaCMARWrite
  | dmaCNDTRWrite (n : Nat)
  | dmaCCRWrite (minc dir tcie en : Bool)
  | gpioBSRRWrite (w : Nat)
  | uartWriteStr (s : String)
  | fillBuffer
  | pollTCIF
  | bkptHalt
  | spinForever
deriving DecidableEq

/-- `uart3_init` of the nucleo board firmware, one event per register
write in program order: three RCC writes, eight GPIOD configuration
writes, `CR1 = 0`, `CR2 = 0`, `CR3 = 0`, `BRR = 556`,
`CR1 = TE | RE | UE`. -/
def nucleoUartInitTrace : List FwEv :=
  [ .rccWrite 0, .rccWrite 1, .rccWrite 2,
    .gpioCfgWrite 0, .gpioCfgWrite 1, .gpioCfgWrite 2, .gpioCfgWrite 3,
    .gpioCfgWrite 4, .gpioCfgWrite 5, .gpioCfgWrite 6, .gpioCfgWrite 7,
    .uartCR1Write false false false, .uartCR2Zero, .uartCR3Zero,
    .uartBRRWrite 556, .uartCR1Write true true true ]

/-- `uart3_init` of the stress-test firmware: two RCC writes, four GPIOD
configuration writes, `BRR = 556`, `CR3 |= DMAT`, `CR1 = TE | UE`. -/
def hilUartInitTrace : List FwEv :=
  [ .rccWrite 0, .rccWrite 1,
    .gpioCfgWrite 0, .gpioCfgWrite 1, .gpioCfgWrite 2, .gpioCfgWrite 3,
    .uartBRRWrite 556, .uartCR3SetDMAT, .uartCR1Write true false true ]

/-- `dma1_init` of the stress-test firmware: RCC clock enable, then
CPAR, CMAR, CNDTR, then the single CCR write
`MINC | DIR | TCIE | EN`. -/
def hilDmaInitTrace : List FwEv :=
  [ .rccWrite 2, .dmaCPARWrite, .dmaCMARWrite, .dmaCNDTRWrite 256,
    .dmaCCRWrite true true true true ]

/-- `main` of the stress-test firmware in program order: buffer fill,
`uart3_init`, `dma1_init`, LED on, started banner, completion poll,
passed banner, LED off, breakpoint, infinite spin. -/
def hilMainTrace : List FwEv :=
  .fillBuffer :: (hilUartInitTrace ++ hilDmaInitTrace ++
  [ .gpioBSRRWrite 1, .uartWriteStr "HIL Stress Test Started\r\n",
    .pollTCIF, .uartWriteStr "HIL Stress Test Passed\r\n",
    .gpioBSRRWrite 65536, .bkptHalt, .spinForever ])

def isFill : FwEv → Bool
  | .fillBuffer => true
  | _ => false

def isStartSignal : FwEv → Bool
  | .gpioBSRRWrite w => w == 1
  | .uartWriteStr s => s == "HIL Stress Test Started\r\n"
  | _ => false

def isDmaEnable : FwEv → Bool
  | .dmaCCRWrite _ _ _ en => en
  | _ => false

def isDmaCCRAny : FwEv → Bool
  | .dmaCCRWrite _ _ _ _ => true
  | _ => false

def isDmaCPAR : FwEv → Bool
  | .dmaCPARWrite => true
  | _ => false

def isDmaCMAR : FwEv → Bool
  | .dmaCMARWrite => true
  | _ => false

def isDmaCNDTR : FwEv → Bool
  | .dmaCNDTRWrite _ => true
  | _ => false

def isUartDMAT : FwEv → Bool
  | .uartCR3SetDMAT => true
  | _ => false

def isPoll : FwEv → Bool
  | .pollTCIF => true
  | _ => false

def isPassReport : FwEv → Bool
  | .uartWriteStr s => s == "HIL Stress Test Passed\r\n"
  | _ => false

def isClearSignal : FwEv → Bool
  | .gpioBSRRWrite w => w == 65536
  | _ => false

def isBkpt : FwEv → Bool
  | .bkptHalt => true
  | _ => false

def isSpin : FwEv → Bool
  | .spinForever => true
  | _ => false

def isBRR556 : FwEv → Bool
  | .uartBRRWrite v => v == 556
  | _ => false

def isCR1AllClear : FwEv → Bool
  | .uartCR1Write te re ue => !te && !re && !ue
  | _ => false

def isCR2Clear : FwEv → Bool
  | .uartCR2Zero => true
  | _ => false

def isCR3Clear : FwEv → Bool
  | .uartCR3Zero => true
  | _ => false

def isCR1EnableAll : FwEv → Bool
  | .uartCR1Write te re ue => te && re && ue
  | _ => false

def isCR1EnableTxUe : FwEv → Bool
  | .uartCR1Write te re ue => te && !re && ue
  | _ => false

def isReceiveEnable : FwEv → Bool
  | .uartCR1Write _ re _ => re
  | _ => false

/-- The step order claimed for the one-shot stress test: fill, then the
started signal, then the DMA start, then the poll, the passed report,
the pin clear, the breakpoint and the spin. -/
def hilClaimedOrder : Prop :=
  hilMainTrace.findIdx isFill < hilMainTrace.findIdx isStartSignal ∧
  hilMainTrace.findIdx isStartSignal < hilMainTrace.findIdx isDmaEnable ∧
  hilMainTrace.findIdx isDmaEnable < hilMainTrace.findIdx isPoll ∧
  hilMainTrace.findIdx isPoll < hilMainTrace.findIdx isPassReport ∧
  hilMainTrace.findIdx isPassReport < hilMainTrace.findIdx isClearSignal ∧
  hilMainTrace.findIdx isClearSignal < hilMainTrace.findIdx isBkpt ∧
  hilMainTrace.findIdx isBkpt < hilMainTrace.findIdx isSpin ∧
  hilMainTrace.findIdx isSpin < hilMainTrace.length

/-- Claim C3 counterexample: the claimed order does not hold on the
stress-test main: the DMA transfer is already started (inside
`dma1_init`, whose final CCR write sets the enable bit) before the
test-started signal is raised. -/
theorem hil_order_counterexample :
    ¬ hilClaimedOrder ∧
    hilMainTrace.findIdx isDmaEnable < hilMainTrace.findIdx isStartSignal := by
  constructor
  · intro hc
    rcases hc with ⟨h1, h2, hrest⟩
    revert h1 h2
    decide
  · decide

/-- Claim C3 amended: the stress-test firmware fills the buffer, then
starts the single DMA transfer (the enable bit is set by the last write
of `dma1_init`), then signals test started on the pin and over UART,
then polls for completion with no timeout, reports passed, clears the
pin, and halts via breakpoint followed by an infinite spin. -/
theorem hil_main_order :
    hilMainTrace.findIdx isFill < hilMainTrace.findIdx isDmaEnable ∧
    hilMainTrace.findIdx isDmaEnable < hilMainTrace.findIdx isStartSignal ∧
    hilMainTrace.findIdx isStartSignal < hilMainTrace.findIdx isPoll ∧
    hilMainTrace.findIdx isPoll < hilMainTrace.findIdx isPassReport ∧
    hilMainTrace.findIdx isPassReport < hilMainTrace.findIdx isClearSignal ∧
    hilMainTrace.findIdx isClearSignal < hilMainTrace.findIdx isBkpt ∧
    hilMainTrace.findIdx isBkpt < hilMainTrace.findIdx isSpin ∧
    hilMainTrace.findIdx isSpin < hilMainTrace.length ∧
    (hilMainTrace.filter isDmaEnable).length = 1 := by
  decide

/-- The UART init shape the claim describes for every init routine of
the family: disable and clear the three control registers first, then
program the divisor 556, then enable transmit, receive and the
peripheral in one final control write. -/
def uartInitClaimed (t : List FwEv) : Prop :=
  t.findIdx isCR1AllClear < t.findIdx isBRR556 ∧
  t.findIdx isCR2Clear < t.findIdx isBRR556 ∧
  t.findIdx isCR3Clear < t.findIdx isBRR556 ∧
  t.findIdx isBRR556 < t.findIdx isCR1EnableAll ∧
  t.findIdx isCR1EnableAll < t.length

/-- Claim C4 counterexample: the stress-test `uart3_init` does not fit
the claimed shape: it never disables the UART, never clears a control
register, and never enables receive. -/
theorem uart_init_claim_counterexample :
    ¬ uartInitClaimed hilUartInitTrace := by
  intro hc
  rcases hc with ⟨h1, h2, h3, h4, h5⟩
  revert h4 h5
  decide

/-- Claim C4 amended: the nucleo board `uart3_init` has exactly the
claimed shape (clear CR1, CR2, CR3, then `BRR = 556`, then enable
transmit, receive and the peripheral); the stress-test `uart3_init`
instead programs `BRR = 556` directly, sets the transmit-DMA-request
flag, and enables transmit and the peripheral only, with no prior
disable or clear and no receive enable. -/
theorem uart_init_family :
    uartInitClaimed nucleoUartInitTrace ∧
    hilUartInitTrace.findIdx isBRR556 < hilUartInitTrace.findIdx isUartDMAT ∧
    hilUartInitTrace.findIdx isUartDMAT < hilUartInitTrace.findIdx isCR1EnableTxUe ∧
    hilUartInitTrace.findIdx isCR1EnableTxUe < hilUartInitTrace.length ∧
    hilUartInitTrace.all (fun e =>
      !(isCR1AllClear e) && !(isCR2Clear e) && !(isCR3Clear e) &&
      !(isReceiveEnable e)) = true := by
  refine ⟨⟨?_, ?_, ?_, ?_, ?_⟩, ?_, ?_, ?_, ?_⟩ <;> decide

/-- Claim C6: in the stress-test firmware the peripheral-address,
memory-address and transfer-count registers are all programmed while
the channel is still disabled (the only CCR write of the whole image is
the final enabling one, and all three programming writes precede it),
the transmit-DMA-request flag of the UART is set before the channel
enable, and the configuration flags MINC, DIR (memory-to-peripheral),
TCIE and the enable bit are set in one single register write. -/
theorem dma_init_ordering :
    hilMainTrace.findIdx isDmaCPAR < hilMainTrace.findIdx isDmaEnable ∧
    hilMainTrace.findIdx isDmaCMAR < hilMainTrace.findIdx isDmaEnable ∧
    hilMainTrace.findIdx isDmaCNDTR < hilMainTrace.findIdx isDmaEnable ∧
    hilMainTrace.findIdx isDmaCCRAny = hilMainTrace.findIdx isDmaEnable ∧
    hilMainTrace.findIdx isUartDMAT < hilMainTrace.findIdx isDmaEnable ∧
    hilMainTrace.filter isDmaCCRAny = [.dmaCCRWrite true true true true] ∧
    hilMainTrace.findIdx isDmaEnable < hilMainTrace.length := by
  refine ⟨?_, ?_, ?_, ?_, ?_, ?_, ?_⟩ <;> decide
